import Mathlib

/-!
Shallow embedding of the kkowa/proxy-lib forward-proxy core: the HTTP message
model (`src/http`), credential extraction (`src/auth/credentials.rs`), the
built-in authenticators (`src/auth/mod.rs`), the handler chain and proxy engine
(`src/proxy/mod.rs`), and the CONNECT tunnel.  Machine bytes are `Nat`, header
maps are ordered association lists, fallible paths return explicit `panic`
constructors where the Rust uses `expect`.
-/

namespace ProxyLib

/-- Bytes of the UTF-8 encoding of a string (Rust `String`/`&str` to byte buffer). -/
def strToBytes (s : String) : List Nat :=
  (s.data.flatMap String.utf8EncodeChar).map (fun b => b.toNat)

/-- Header multimap: ordered list of (name, value-bytes) entries, mirroring
`http::HeaderMap<HeaderValue>`.  Header names compare case-insensitively. -/
abbrev Headers : Type := List (String × List Nat)

/-- ASCII lowercasing (`str::to_lowercase`; header names and schemes here are
ASCII, where Rust's Unicode lowercasing and ASCII lowercasing agree). -/
def strToLower (s : String) : String :=
  String.mk (s.data.map Char.toLower)

/-- First value stored under a header name, like `HeaderMap::get`
(names match case-insensitively). -/
def headersGet (hs : Headers) (name : String) : Option (List Nat) :=
  (hs.find? (fun p => strToLower p.1 == strToLower name)).map (fun p => p.2)

/-- Remove every entry stored under a header name, like `HeaderMap::remove`
(which removes all values associated with the key). -/
def headersRemove (hs : Headers) (name : String) : Headers :=
  hs.filter (fun p => !(strToLower p.1 == strToLower name))

/-- Standard hop-by-hop header names (`HOP_BY_HOP_HEADERS` in `src/http/mod.rs`);
the `hyper::header` constants are lowercase `HeaderName`s. -/
def HOP_BY_HOP_HEADERS : List String :=
  ["proxy-authenticate", "proxy-authorization", "connection", "te",
   "trailer", "transfer-encoding", "upgrade"]

/-- Non-standard hop-by-hop header names (`HOP_BY_HOP_HEADERS_NONSTD`). -/
def HOP_BY_HOP_HEADERS_NONSTD : List String :=
  ["Proxy-Connection", "Keep-Alive"]

/-- Remove all hop-by-hop headers, as `remove_hop_by_hop_headers` does: one
`HeaderMap::remove` per name in each constant list. -/
def remove_hop_by_hop_headers (hs : Headers) : Headers :=
  List.foldl headersRemove (List.foldl headersRemove hs HOP_BY_HOP_HEADERS)
    HOP_BY_HOP_HEADERS_NONSTD

/-- URI as the engine consumes it: only the host and authority components are
inspected by the proxy (`uri.host()`, `uri.authority()`). -/
structure Uri where
  host : Option String
  authority : Option String
  deriving DecidableEq

/-- Crate-level request (`src/http/request.rs`), body already buffered. -/
structure Request where
  method : String
  uri : Uri
  version : String
  headers : Headers
  payload : List Nat
  deriving DecidableEq

/-- Crate-level response (`src/http/response.rs`); carries its source request. -/
structure Response where
  status : Nat
  version : String
  headers : Headers
  payload : List Nat
  request : Request
  deriving DecidableEq

/-- Wire-level response handed back to the client (a `hyper::Response` body). -/
structure HttpResponse where
  status : Nat
  version : String
  headers : Headers
  body : List Nat
  deriving DecidableEq

/-- Conversion `From<Response> for hyper::Response<Body>`: drops the attached
request, keeps status, version, headers and payload. -/
def responseToHttp (r : Response) : HttpResponse :=
  ⟨r.status, r.version, r.headers, r.payload⟩

/-- Proxy credentials value (`src/auth/credentials.rs`). -/
structure Credentials where
  scheme : String
  credentials : String
  deriving DecidableEq

/-- Errors of the credentials extractor (`credentials::Error`). -/
inductive CredentialsError where
  | missingHeader
  | invalidFormat (n : Nat)
  | unknown
  deriving DecidableEq

/-- Outcome of `Credentials::try_from`, with an explicit constructor for the
`expect` panic on non-string header values. -/
inductive Extracted where
  | ok (c : Credentials)
  | err (e : CredentialsError)
  | panic (msg : String)
  deriving DecidableEq

/-- Visible-ASCII test used by `http::HeaderValue::to_str` (bytes 32..126, or tab). -/
def isVisibleAscii (b : Nat) : Bool :=
  (32 ≤ b && b < 127) || b == 9

/-- Header-value-to-string conversion (`HeaderValue::to_str`): succeeds exactly
when every byte passes the visible-ASCII test, in which case the bytes are the
characters. -/
def headerValueToStr (bs : List Nat) : Option String :=
  if bs.all isVisibleAscii then some (String.mk (bs.map Char.ofNat)) else none

/-- Accumulator pass behind `split_whitespace`: collect maximal runs of
non-whitespace characters. -/
def splitWsAux (acc : List Char) : List Char → List (List Char)
  | [] => if acc.isEmpty then [] else [acc.reverse]
  | c :: rest =>
    if c.isWhitespace then
      if acc.isEmpty then splitWsAux [] rest
      else acc.reverse :: splitWsAux [] rest
    else splitWsAux (c :: acc) rest

/-- Whitespace split as Rust `str::split_whitespace`: the maximal non-empty
runs of non-whitespace characters, in order.  (Values reaching it are visible
ASCII plus tab, on which Rust and Lean whitespace classes agree.) -/
def split_whitespace (s : String) : List String :=
  (splitWsAux [] s.data).map String.mk

/-- Credential extraction `Credentials::try_from(&Request)`: read the
`Proxy-Authorization` header, `to_str` it (panicking via `expect` on failure),
split on whitespace, and require exactly two tokens. -/
def credentialsTryFrom (req : Request) : Extracted :=
  match headersGet req.headers "proxy-authorization" with
  | none => Extracted.err CredentialsError.missingHeader
  | some bs =>
    match headerValueToStr bs with
    | none => Extracted.panic "failed to convert header value to string"
    | some s =>
      match split_whitespace s with
      | [scheme, credentials] => Extracted.ok ⟨scheme, credentials⟩
      | toks => Extracted.err (CredentialsError.invalidFormat toks.length)

/-- Errors of the authenticator contract (`auth::Error`). -/
inductive AuthError where
  | invalidScheme (got expect : String)
  | invalidFormat (n : Nat)
  | notAuthenticated
  deriving DecidableEq

/-- An authenticator as the engine sees it: the `Authenticator::authenticate`
capability of one configured backend (trait object in `Proxy.auths`). -/
def AuthFn : Type := Credentials → Except AuthError Unit

/-- Per-connection flow state (`src/proxy/flow.rs`); the shared `app` handle is
represented by passing the proxy configuration to the engine explicitly. -/
structure Flow where
  id : Nat
  client : String
  auth : Option Credentials
  deriving DecidableEq

/-- Authentication loop of `proxy()`: iterate the configured authenticators in
order; on the first `Ok` write `Some(credentials)` into the auth slot and stop;
on `Err` log and continue.  `auth0` is the incoming value of `flow.auth`. -/
def authLoop (auths : List AuthFn) (c : Credentials) (auth0 : Option Credentials) :
    Option Credentials :=
  match auths with
  | [] => auth0
  | a :: rest =>
    match a c with
    | Except.ok _ => some c
    | Except.error _ => authLoop rest c auth0

/-- Handler action on the forward direction (`handler::Forward`). -/
inductive Forward where
  | doNothing
  | modify (r : Request)
  | reply (resp : Response)

/-- Handler action on the reverse direction (`handler::Reverse`). -/
inductive Reverse where
  | doNothing
  | modify (r : Response)
  | replace (resp : Response)

/-- A handler as the engine sees it: the two hooks of the `Handler` trait. -/
structure Handler where
  on_request : Flow → Request → Forward
  on_response : Flow → Response → Reverse

/-- Replace a handler's reverse hook, leaving its forward hook untouched. -/
def Handler.withOnResponse (h : Handler) (f : Flow → Response → Reverse) : Handler :=
  { h with on_response := f }

/-- Forward handler chain of `proxy()`: thread the current request through the
handlers in declared order; `reply` aborts the chain with a response. -/
def runForwardChain (flow : Flow) (handlers : List Handler) (r : Request) :
    Except Response Request :=
  match handlers with
  | [] => Except.ok r
  | h :: rest =>
    match h.on_request flow r with
    | Forward.doNothing => runForwardChain flow rest r
    | Forward.modify r2 => runForwardChain flow rest r2
    | Forward.reply resp => Except.error resp

/-- Reverse handler chain of `proxy()`: thread the response through the handlers
in declared order; `replace` returns its response immediately. -/
def runReverseChain (flow : Flow) (handlers : List Handler) (r : Response) : Response :=
  match handlers with
  | [] => r
  | h :: rest =>
    match h.on_response flow r with
    | Reverse.doNothing => runReverseChain flow rest r
    | Reverse.modify r2 => runReverseChain flow rest r2
    | Reverse.replace r2 => r2

/-- What one `proxy()` invocation produced: the response sent to the client, and
the request delivered to the origin when the upstream call happened. -/
structure ProxyOutcome where
  response : HttpResponse
  forwarded : Option Request
  deriving DecidableEq

/-- Result of one `proxy()` invocation; `panic` marks the `expect` aborts. -/
inductive ProxyResult where
  | ok (out : ProxyOutcome)
  | panic (msg : String)
  deriving DecidableEq

/-- Status code of the produced response, when one was produced at all. -/
def ProxyResult.statusOf : ProxyResult → Option Nat
  | ProxyResult.ok out => some out.response.status
  | ProxyResult.panic _ => none

/-- Handler-and-forward phase of `proxy()` (lines 217-246): run the forward
chain, strip hop-by-hop headers, call the origin, attach the stripped request to
the buffered response, run the reverse chain. -/
def proxyHandlerPhase (upstream : Request → HttpResponse) (handlers : List Handler)
    (flow : Flow) (req : Request) : ProxyResult :=
  match runForwardChain flow handlers req with
  | Except.error resp => ProxyResult.ok ⟨responseToHttp resp, none⟩
  | Except.ok r2 =>
    let r3 : Request := { r2 with headers := remove_hop_by_hop_headers r2.headers }
    let upResp := upstream r3
    let resp0 : Response := ⟨upResp.status, upResp.version, upResp.headers, upResp.body, r3⟩
    ProxyResult.ok ⟨responseToHttp (runReverseChain flow handlers resp0), some r3⟩

/-- Proxy path of `serve` (the `proxy()` function in `src/proxy/mod.rs`):
host assertion, authentication stage when authenticators are configured, then
the handler-and-forward phase. -/
def proxy (upstream : Request → HttpResponse) (auths : List AuthFn)
    (handlers : List Handler) (flow : Flow) (req : Request) : ProxyResult :=
  match req.uri.host with
  | none => ProxyResult.panic "URI has no host part"
  | some _ =>
    if auths.isEmpty then proxyHandlerPhase upstream handlers flow req
    else
      match credentialsTryFrom req with
      | Extracted.panic m => ProxyResult.panic m
      | Extracted.err _ =>
        ProxyResult.ok ⟨⟨400, "HTTP/1.1", [], strToBytes "invalid proxy auth credentials"⟩, none⟩
      | Extracted.ok creds =>
        let flow2 : Flow := { flow with auth := authLoop auths creds flow.auth }
        if flow2.auth.isNone then
          ProxyResult.ok
            ⟨⟨407, "HTTP/1.1", [("proxy-authenticate", strToBytes "Bearer")], []⟩, none⟩
        else proxyHandlerPhase upstream handlers flow2 req

/-- Awaited effects of the task spawned by `connect()`/`tunnel()`, listed in
program order: first await the client upgrade, then open the TCP connection to
the authority, then splice bytes.  Failures at any step only log; the
`respondToClient` effect exists in the vocabulary but the tunnel never emits it. -/
inductive TunnelStep where
  | awaitUpgrade
  | tcpConnect (addr : String)
  | copyBidirectional
  | respondToClient (r : HttpResponse)
  deriving DecidableEq

/-- Test for the upgrade-await step. -/
def TunnelStep.isAwaitUpgrade : TunnelStep → Bool
  | TunnelStep.awaitUpgrade => true
  | _ => false

/-- Test for the TCP-connect step towards a given address. -/
def TunnelStep.isTcpConnectTo (addr : String) : TunnelStep → Bool
  | TunnelStep.tcpConnect a => a == addr
  | _ => false

/-- Test for a response-emitting step. -/
def TunnelStep.isRespondToClient : TunnelStep → Bool
  | TunnelStep.respondToClient _ => true
  | _ => false

/-- CONNECT handler (`connect()` in `src/proxy/mod.rs`): with an authority,
spawn the upgrade-then-tunnel task and answer 200 with an empty body
(`hyper::Response::new(Body::empty())`); without one, answer 400 with the
literal body. -/
def connect (req : Request) : HttpResponse × Option (List TunnelStep) :=
  match req.uri.authority with
  | some addr =>
    (⟨200, "HTTP/1.1", [], []⟩,
     some [TunnelStep.awaitUpgrade, TunnelStep.tcpConnect addr, TunnelStep.copyBidirectional])
  | none =>
    (⟨400, "HTTP/1.1", [], strToBytes "CONNECT must be to a socket address."⟩, none)

/-- Value of one standard-alphabet base64 symbol. -/
def base64CharVal (c : Char) : Option Nat :=
  if 65 ≤ c.toNat ∧ c.toNat ≤ 90 then some (c.toNat - 65)
  else if 97 ≤ c.toNat ∧ c.toNat ≤ 122 then some (c.toNat - 97 + 26)
  else if 48 ≤ c.toNat ∧ c.toNat ≤ 57 then some (c.toNat - 48 + 52)
  else if c = '+' then some 62
  else if c = '/' then some 63
  else none

/-- Map every character to its base64 value, failing on the first non-symbol. -/
def base64Vals : List Char → Option (List Nat)
  | [] => some []
  | c :: rest =>
    match base64CharVal c, base64Vals rest with
    | some v, some vs => some (v :: vs)
    | _, _ => none

/-- Reassemble bytes from 6-bit symbol values; a trailing group of two or three
symbols yields one or two bytes, and unused trailing bits must be zero
(the `base64` crate's default `decode_allow_trailing_bits = false`). -/
def decodeChunks : List Nat → Option (List Nat)
  | [] => some []
  | [_] => none
  | [a, b] => if b % 16 == 0 then some [a * 4 + b / 16] else none
  | [a, b, c] =>
    if c % 4 == 0 then some [a * 4 + b / 16, (b % 16) * 16 + c / 4] else none
  | a :: b :: c :: d :: rest =>
    match decodeChunks rest with
    | some t => some ((a * 4 + b / 16) :: ((b % 16) * 16 + c / 4) :: ((c % 4) * 64 + d) :: t)
    | none => none

/-- Standard padded base64 decoding (`base64::decode`): strip up to two trailing
padding characters (which must complete a 4-symbol group), translate the
remaining symbols, and reassemble the bytes. -/
def base64_decode (s : String) : Option (List Nat) :=
  let cs := s.data
  let pads := (cs.reverse.takeWhile (fun c => c = '=')).length
  if pads > 2 then none
  else if pads > 0 ∧ cs.length % 4 ≠ 0 then none
  else
    let content := cs.take (cs.length - pads)
    if content.length % 4 == 1 then none
    else
      match base64Vals content with
      | some vs => decodeChunks vs
      | none => none

/-- Continuation-byte test for UTF-8 decoding. -/
def isCont (b : Nat) : Bool := 128 ≤ b && b ≤ 191

/-- Lower bound of the first continuation byte for a given lead byte. -/
def cont1Lo (lead : Nat) : Nat :=
  if lead == 224 then 160 else if lead == 240 then 144 else 128

/-- Upper bound of the first continuation byte for a given lead byte. -/
def cont1Hi (lead : Nat) : Nat :=
  if lead == 237 then 159 else if lead == 244 then 143 else 191

/-- The U+FFFD replacement character. -/
def replChar : Char := Char.ofNat 0xFFFD

/-- Lossy UTF-8 decoding (`String::from_utf8_lossy`): well-formed sequences
decode to their scalar value; each maximal ill-formed subpart becomes one
replacement character.  The fuel argument only bounds the recursion and exceeds
the byte count on every call, since each step consumes at least one byte. -/
def utf8LossyAux : Nat → List Nat → List Char
  | 0, _ => []
  | _, [] => []
  | fuel + 1, b :: rest =>
    if b < 128 then Char.ofNat b :: utf8LossyAux fuel rest
    else if 194 ≤ b ∧ b ≤ 223 then
      match rest with
      | b1 :: rest2 =>
        if isCont b1 then Char.ofNat ((b - 192) * 64 + (b1 - 128)) :: utf8LossyAux fuel rest2
        else replChar :: utf8LossyAux fuel (b1 :: rest2)
      | [] => [replChar]
    else if 224 ≤ b ∧ b ≤ 239 then
      match rest with
      | b1 :: rest2 =>
        if cont1Lo b ≤ b1 ∧ b1 ≤ cont1Hi b then
          match rest2 with
          | b2 :: rest3 =>
            if isCont b2 then
              Char.ofNat ((b - 224) * 4096 + (b1 - 128) * 64 + (b2 - 128)) ::
                utf8LossyAux fuel rest3
            else replChar :: utf8LossyAux fuel (b2 :: rest3)
          | [] => [replChar]
        else replChar :: utf8LossyAux fuel (b1 :: rest2)
      | [] => [replChar]
    else if 240 ≤ b ∧ b ≤ 244 then
      match rest with
      | b1 :: rest2 =>
        if cont1Lo b ≤ b1 ∧ b1 ≤ cont1Hi b then
          match rest2 with
          | b2 :: rest3 =>
            if isCont b2 then
              match rest3 with
              | b3 :: rest4 =>
                if isCont b3 then
                  Char.ofNat
                      ((b - 240) * 262144 + (b1 - 128) * 4096 + (b2 - 128) * 64 + (b3 - 128)) ::
                    utf8LossyAux fuel rest4
                else replChar :: utf8LossyAux fuel (b3 :: rest4)
              | [] => [replChar]
            else replChar :: utf8LossyAux fuel (b2 :: rest3)
          | [] => [replChar]
        else replChar :: utf8LossyAux fuel (b1 :: rest2)
      | [] => [replChar]
    else replChar :: utf8LossyAux fuel rest

/-- Lossy UTF-8 decoding of a byte buffer into a string. -/
def utf8Lossy (bs : List Nat) : String := String.mk (utf8LossyAux bs.length bs)

/-- Accumulator pass behind the single-character splits: cut at every separator
occurrence, keeping empty fields. -/
def splitOnCharAux (sep : Char) (acc : List Char) : List Char → List (List Char)
  | [] => [acc.reverse]
  | c :: rest =>
    if c = sep then acc.reverse :: splitOnCharAux sep [] rest
    else splitOnCharAux sep (c :: acc) rest

/-- Plain split on one separator character (Rust `str::split(sep)`): every
field kept, including empty ones; the empty string yields one empty field. -/
def splitOnChar (sep : Char) (s : String) : List String :=
  (splitOnCharAux sep [] s.data).map String.mk

/-- Split on colon as Rust `str::split_terminator(':')`: like the plain split,
except that one empty field produced by a trailing separator is dropped
(and the empty string yields no fields). -/
def split_terminator_colon (s : String) : List String :=
  let parts := splitOnChar ':' s
  if parts.getLast? = some "" then parts.dropLast else parts

/-- Static HTTP basic authenticator configuration (`auth::HTTPBasic`). -/
structure HTTPBasic where
  username : String
  password : String
  deriving DecidableEq

/-- Outcome of a built-in authenticator, with an explicit constructor for the
`expect` panic on base64 decode failure. -/
inductive AuthOutcome where
  | ok
  | err (e : AuthError)
  | panic (msg : String)
  deriving DecidableEq

/-- `HTTPBasic::authenticate`: lowercase-scheme check, base64 decode (panicking
via `expect` on failure), lossy UTF-8 decode, `split_terminator(':')`, field
count check, then comparison against the configured username and password.
The source computes `n = v.len()` and tests `n != 2` before indexing; matching
on a two-element list is the same discrimination. -/
def HTTPBasic.authenticate (self : HTTPBasic) (c : Credentials) : AuthOutcome :=
  if strToLower c.scheme ≠ "basic" then
    AuthOutcome.err (AuthError.invalidScheme c.scheme "basic")
  else
    match base64_decode c.credentials with
    | none => AuthOutcome.panic "failed to base64 decode HTTP basic credentials"
    | some bytes =>
      match split_terminator_colon (utf8Lossy bytes) with
      | [username, password] =>
        if username = self.username ∧ password = self.password then AuthOutcome.ok
        else AuthOutcome.err AuthError.notAuthenticated
      | v => AuthOutcome.err (AuthError.invalidFormat v.length)

/-- Static HTTP bearer authenticator configuration (`auth::HTTPBearer`). -/
structure HTTPBearer where
  token : String
  deriving DecidableEq

/-- `HTTPBearer::authenticate`: lowercase-scheme check, then literal comparison
of the credentials against the configured token. -/
def HTTPBearer.authenticate (self : HTTPBearer) (c : Credentials) : AuthOutcome :=
  if strToLower c.scheme ≠ "bearer" then
    AuthOutcome.err (AuthError.invalidScheme c.scheme "bearer")
  else if c.credentials = self.token then AuthOutcome.ok
  else AuthOutcome.err AuthError.notAuthenticated

/-- Escape of one character inside Rust's `Debug` rendering of a string, for the
printable-ASCII range used in this development. -/
def rustCharDebugInStr (c : Char) : String :=
  if c = '"' then "\\\"" else if c = '\\' then "\\\\" else String.singleton c

/-- Rust `Debug` rendering of a string value: quoted, with escapes. -/
def rustStrDebug (s : String) : String :=
  "\"" ++ String.join (s.data.map rustCharDebugInStr) ++ "\""

/-- Output of the derived `Debug` implementation on `Credentials`
(`#[derive(Debug)]` on the struct with fields `scheme` and `credentials`):
both fields are printed, including the credentials material. -/
def credentialsDebugFmt (c : Credentials) : String :=
  "Credentials \x7b scheme: " ++ rustStrDebug c.scheme ++
    ", credentials: " ++ rustStrDebug c.credentials ++ " \x7d"

/-- Folding header removal over a list of names is one filter requiring the
entry's name to differ (case-insensitively) from every listed name. -/
theorem foldl_headersRemove_eq_filter (ks : List String) (hs : Headers) :
    List.foldl headersRemove hs ks =
      hs.filter (fun p => ks.all (fun k => !(strToLower p.1 == strToLower k))) := by
  induction ks generalizing hs with
  | nil => simp
  | cons k ks ih =>
    rw [List.foldl_cons, ih]
    unfold headersRemove
    rw [List.filter_filter]
    congr 1
    funext p
    simp [List.all_cons, Bool.and_comm]

/-- Hop-by-hop removal is one filter against the concatenated name lists. -/
theorem remove_hop_by_hop_eq_filter (hs : Headers) :
    remove_hop_by_hop_headers hs =
      hs.filter (fun p =>
        (HOP_BY_HOP_HEADERS ++ HOP_BY_HOP_HEADERS_NONSTD).all
          (fun k => !(strToLower p.1 == strToLower k))) := by
  unfold remove_hop_by_hop_headers
  rw [foldl_headersRemove_eq_filter, foldl_headersRemove_eq_filter, List.filter_filter]
  congr 1
  funext p
  simp [List.all_append, Bool.and_comm]

/-- C9: `strip_hop_by_hop` is idempotent: applying the hop-by-hop removal twice
yields the same header map as applying it once. -/
theorem c9_strip_idempotent (hs : Headers) :
    remove_hop_by_hop_headers (remove_hop_by_hop_headers hs) = remove_hop_by_hop_headers hs := by
  rw [remove_hop_by_hop_eq_filter hs, remove_hop_by_hop_eq_filter, List.filter_filter]
  congr 1
  funext p
  exact Bool.and_self _

/-- C6 (code bug): the derived `Debug` rendering of `Credentials` contains the
credentials material verbatim, so two values differing only in the credentials
field render differently rather than identically. -/
theorem c6_debug_leaks_credentials :
    credentialsDebugFmt ⟨"Basic", "secret"⟩ =
        "Credentials \x7b scheme: \"Basic\", credentials: \"secret\" \x7d" ∧
      credentialsDebugFmt ⟨"Basic", "secret"⟩ ≠ credentialsDebugFmt ⟨"Basic", "other"⟩ := by
  decide

/-- C4 (amended): on the proxy path, a request whose URI has no host component
makes the engine panic via `expect("URI has no host part")` instead of
responding; in particular no 400 response is produced. -/
theorem c4_missing_host_panics (upstream : Request → HttpResponse) (auths : List AuthFn)
    (handlers : List Handler) (flow : Flow) (req : Request)
    (h : req.uri.host = none) :
    proxy upstream auths handlers flow req = ProxyResult.panic "URI has no host part" := by
  unfold proxy
  rw [h]

/-- Witness for C4 at a concrete hostless request. -/
theorem c4_missing_host_panics_witness :
    proxy (fun _ => ⟨200, "HTTP/1.1", [], []⟩) [] [] ⟨0, "client", none⟩
        ⟨"GET", ⟨none, none⟩, "HTTP/1.1", [], []⟩ =
      ProxyResult.panic "URI has no host part" :=
  c4_missing_host_panics _ _ _ _ _ rfl

/-- Counterexample to C4 as stated: at a concrete hostless request the proxy
path produces no response at all (so in particular no 400), panicking instead. -/
theorem c4_missing_host_counterexample :
    ProxyResult.statusOf
        (proxy (fun _ => ⟨200, "HTTP/1.1", [], []⟩) [] [] ⟨0, "client", none⟩
          ⟨"GET", ⟨none, none⟩, "HTTP/1.1", [], []⟩) = none ∧
      proxy (fun _ => ⟨200, "HTTP/1.1", [], []⟩) [] [] ⟨0, "client", none⟩
          ⟨"GET", ⟨none, none⟩, "HTTP/1.1", [], []⟩ =
        ProxyResult.panic "URI has no host part" :=
  ⟨rfl, rfl⟩

/-- C8: a CONNECT request without an authority is answered 400 with the exact
literal body; with an authority it is answered 200 with an empty body, and the
spawned task awaits the client upgrade strictly before opening the TCP
connection to the authority, emitting no response step at any point. -/
theorem c8_connect_tunnel (req : Request) :
    (req.uri.authority = none →
      connect req =
        (⟨400, "HTTP/1.1", [], strToBytes "CONNECT must be to a socket address."⟩, none)) ∧
    (∀ a, req.uri.authority = some a →
      (connect req).1.status = 200 ∧ (connect req).1.body = [] ∧
      ∃ steps, (connect req).2 = some steps ∧
        List.findIdx TunnelStep.isAwaitUpgrade steps <
          List.findIdx (TunnelStep.isTcpConnectTo a) steps ∧
        steps.all (fun s => !s.isRespondToClient) = true) := by
  constructor
  · intro h
    simp only [connect, h]
  · intro a h
    have hc : connect req =
        (⟨200, "HTTP/1.1", [], []⟩,
          some [TunnelStep.awaitUpgrade, TunnelStep.tcpConnect a,
            TunnelStep.copyBidirectional]) := by
      simp only [connect, h]
    rw [hc]
    refine ⟨rfl, rfl,
      [TunnelStep.awaitUpgrade, TunnelStep.tcpConnect a, TunnelStep.copyBidirectional],
      rfl, ?_, ?_⟩
    · simp [List.findIdx_cons, TunnelStep.isAwaitUpgrade, TunnelStep.isTcpConnectTo]
    · simp [List.all_cons, TunnelStep.isRespondToClient]

/-- Witness for C8 at a concrete CONNECT request carrying an authority. -/
theorem c8_connect_tunnel_witness :
    (connect ⟨"CONNECT", ⟨some "origin", some "origin:443"⟩, "HTTP/1.1", [], []⟩).1.status =
        200 ∧
      (connect ⟨"CONNECT", ⟨some "origin", some "origin:443"⟩, "HTTP/1.1", [], []⟩).1.body =
        [] ∧
      ∃ steps,
        (connect ⟨"CONNECT", ⟨some "origin", some "origin:443"⟩, "HTTP/1.1", [], []⟩).2 =
            some steps ∧
          List.findIdx TunnelStep.isAwaitUpgrade steps <
              List.findIdx (TunnelStep.isTcpConnectTo "origin:443") steps ∧
            steps.all (fun s => !s.isRespondToClient) = true :=
  (c8_connect_tunnel ⟨"CONNECT", ⟨some "origin", some "origin:443"⟩, "HTTP/1.1", [], []⟩).2
    "origin:443" rfl

/-- Every chunk produced by the whitespace splitter is non-empty: the
accumulator is only emitted when non-empty, and grows by one character at a
time. -/
theorem splitWsAux_ne_nil :
    ∀ (l acc : List Char) (t : List Char), t ∈ splitWsAux acc l → t ≠ [] := by
  intro l
  induction l with
  | nil =>
    intro acc t ht
    cases acc with
    | nil => simp [splitWsAux] at ht
    | cons a as =>
      simp [splitWsAux] at ht
      subst ht
      simp
  | cons c rest ih =>
    intro acc t ht
    by_cases hws : c.isWhitespace
    · cases acc with
      | nil =>
        simp [splitWsAux, hws] at ht
        exact ih [] t ht
      | cons a as =>
        simp [splitWsAux, hws] at ht
        rcases ht with h1 | h2
        · subst h1; simp
        · exact ih [] t h2
    · simp [splitWsAux, hws] at ht
      exact ih (c :: acc) t ht

/-- Every token produced by `split_whitespace` is a non-empty string. -/
theorem split_whitespace_ne_empty (s t : String) (ht : t ∈ split_whitespace s) :
    t ≠ "" := by
  unfold split_whitespace at ht
  rcases List.mem_map.mp ht with ⟨l, hl, rfl⟩
  have hnil := splitWsAux_ne_nil s.data [] l hl
  intro h
  exact hnil (by simpa using congrArg String.data h)

/-- C7: extraction returns `MissingHeader` exactly when no `Proxy-Authorization`
header is present; given a string-typed header value, splitting on whitespace
runs yields the outcome: two (necessarily non-empty) tokens produce the
credentials pair, any other token count produces `InvalidFormat` carrying that
count. -/
theorem c7_credentials_extraction (req : Request) :
    (credentialsTryFrom req = Extracted.err CredentialsError.missingHeader ↔
      headersGet req.headers "proxy-authorization" = none) ∧
    (∀ bs s, headersGet req.headers "proxy-authorization" = some bs →
      headerValueToStr bs = some s →
      match split_whitespace s with
      | [scheme, value] =>
          credentialsTryFrom req = Extracted.ok ⟨scheme, value⟩ ∧ scheme ≠ "" ∧ value ≠ ""
      | toks =>
          credentialsTryFrom req = Extracted.err (CredentialsError.invalidFormat toks.length)) := by
  constructor
  · constructor
    · intro h
      unfold credentialsTryFrom at h
      cases hget : headersGet req.headers "proxy-authorization" with
      | none => rfl
      | some bs =>
        simp only [hget] at h
        cases hstr : headerValueToStr bs with
        | none => simp only [hstr] at h; exact absurd h (by simp)
        | some s =>
          simp only [hstr] at h
          rcases hsp : split_whitespace s with _ | ⟨a, _ | ⟨b, _ | ⟨c, rest⟩⟩⟩ <;>
            simp only [hsp] at h <;> simp at h
    · intro h
      unfold credentialsTryFrom
      rw [h]
  · intro bs s hget hstr
    have key : ∀ ts : List String, split_whitespace s = ts →
        credentialsTryFrom req =
          (match ts with
           | [scheme, credentials] => Extracted.ok ⟨scheme, credentials⟩
           | toks => Extracted.err (CredentialsError.invalidFormat toks.length)) := by
      intro ts hts
      unfold credentialsTryFrom
      simp only [hget, hstr, hts]
    rcases hsp : split_whitespace s with _ | ⟨a, _ | ⟨b, _ | ⟨c, rest⟩⟩⟩
    · exact key [] hsp
    · exact key [a] hsp
    · exact ⟨key [a, b] hsp,
        split_whitespace_ne_empty s a (by rw [hsp]; simp),
        split_whitespace_ne_empty s b (by rw [hsp]; simp)⟩
    · exact key (a :: b :: c :: rest) hsp

/-- Witness for C7 at a concrete request carrying `Proxy-Authorization:
Basic  abc` (two tokens separated by a run of two spaces). -/
theorem c7_credentials_extraction_witness :
    credentialsTryFrom
        ⟨"GET", ⟨some "origin", some "origin"⟩, "HTTP/1.1",
          [("Proxy-Authorization", strToBytes "Basic  abc")], []⟩ =
        Extracted.ok ⟨"Basic", "abc"⟩ ∧
      ("Basic" : String) ≠ "" ∧ ("abc" : String) ≠ "" :=
  (c7_credentials_extraction
      ⟨"GET", ⟨some "origin", some "origin"⟩, "HTTP/1.1",
        [("Proxy-Authorization", strToBytes "Basic  abc")], []⟩).2
    (strToBytes "Basic  abc") "Basic  abc" rfl rfl

/-- C10: extraction is not total: a present `Proxy-Authorization` value with a
byte failing the visible-ASCII check panics via `expect` in the string
conversion; apart from that panic, `MissingHeader` and `InvalidFormat` are the
only error outcomes ever returned. -/
theorem c10_extraction_panics (req : Request) :
    (∀ bs, headersGet req.headers "proxy-authorization" = some bs →
      bs.all isVisibleAscii = false →
      credentialsTryFrom req = Extracted.panic "failed to convert header value to string") ∧
    (∀ e, credentialsTryFrom req = Extracted.err e →
      e = CredentialsError.missingHeader ∨ ∃ n, e = CredentialsError.invalidFormat n) := by
  constructor
  · intro bs hget hvis
    simp [credentialsTryFrom, hget, headerValueToStr, hvis]
  · intro e h
    unfold credentialsTryFrom at h
    cases hget : headersGet req.headers "proxy-authorization" with
    | none =>
      simp only [hget, Extracted.err.injEq] at h
      exact Or.inl h.symm
    | some bs =>
      simp only [hget] at h
      cases hstr : headerValueToStr bs with
      | none => simp only [hstr] at h; exact absurd h (by simp)
      | some s =>
        simp only [hstr] at h
        rcases hsp : split_whitespace s with _ | ⟨a, _ | ⟨b, _ | ⟨c, rest⟩⟩⟩ <;>
          simp only [hsp, Extracted.err.injEq] at h
        · exact Or.inr ⟨_, h.symm⟩
        · exact Or.inr ⟨_, h.symm⟩
        · exact absurd h (by simp)
        · exact Or.inr ⟨_, h.symm⟩

/-- Witness for C10 at a concrete request whose header value carries byte 200. -/
theorem c10_extraction_panics_witness :
    credentialsTryFrom
        ⟨"GET", ⟨some "origin", some "origin"⟩, "HTTP/1.1",
          [("Proxy-Authorization", [66, 200])], []⟩ =
      Extracted.panic "failed to convert header value to string" :=
  (c10_extraction_panics
      ⟨"GET", ⟨some "origin", some "origin"⟩, "HTTP/1.1",
        [("Proxy-Authorization", [66, 200])], []⟩).1
    [66, 200] rfl rfl

/-- C5 (amended): with a scheme lowercasing to "basic" and a successfully
base64-decoding credentials string, `HTTPBasic::authenticate` splits the
lossily-decoded string with `split_terminator(':')` — the plain colon split
with one trailing empty field dropped, so "user:" yields one field, not two —
and returns `InvalidFormat` carrying the observed field count whenever it is
not 2; with exactly two fields it returns Ok precisely when they equal the
configured username and password, `NotAuthenticated` otherwise. -/
theorem c5_basic_auth_fields (hb : HTTPBasic) (c : Credentials) (bs : List Nat)
    (hscheme : strToLower c.scheme = "basic")
    (hdec : base64_decode c.credentials = some bs) :
    (∀ fs, splitOnChar ':' (utf8Lossy bs) = fs ++ [""] →
      split_terminator_colon (utf8Lossy bs) = fs) ∧
    (match split_terminator_colon (utf8Lossy bs) with
     | [username, password] =>
        HTTPBasic.authenticate hb c =
          (if username = hb.username ∧ password = hb.password then AuthOutcome.ok
           else AuthOutcome.err AuthError.notAuthenticated)
     | v =>
        HTTPBasic.authenticate hb c = AuthOutcome.err (AuthError.invalidFormat v.length)) := by
  have key : ∀ vs, split_terminator_colon (utf8Lossy bs) = vs →
      HTTPBasic.authenticate hb c =
        (match vs with
         | [username, password] =>
            if username = hb.username ∧ password = hb.password then AuthOutcome.ok
            else AuthOutcome.err AuthError.notAuthenticated
         | v => AuthOutcome.err (AuthError.invalidFormat v.length)) := by
    intro vs hvs
    unfold HTTPBasic.authenticate
    simp only [hscheme, hdec, hvs]
    simp
  constructor
  · intro fs hfs
    unfold split_terminator_colon
    rw [hfs]
    simp
  · rcases hv : split_terminator_colon (utf8Lossy bs) with _ | ⟨u, _ | ⟨p, _ | ⟨x, rest⟩⟩⟩
    · exact key [] hv
    · exact key [u] hv
    · exact key [u, p] hv
    · exact key (u :: p :: x :: rest) hv

/-- Witness for C5 at the repository's own test vector
`username:password`, which authenticates. -/
theorem c5_basic_auth_fields_witness :
    HTTPBasic.authenticate ⟨"username", "password"⟩
        ⟨"Basic", "dXNlcm5hbWU6cGFzc3dvcmQ="⟩ = AuthOutcome.ok := by
  have h := (c5_basic_auth_fields ⟨"username", "password"⟩
      ⟨"Basic", "dXNlcm5hbWU6cGFzc3dvcmQ="⟩
      (strToBytes "username:password") rfl rfl).2
  exact h.trans (by decide)

/-- Counterexample to C5 as stated: decoding `dXNlcjo=` gives `user:`, whose
colon split without collapsing has the two fields `["user", ""]` — so, for the
configuration ("user", ""), the claim predicts Ok — yet the code observes one
field via `split_terminator` and returns `InvalidFormat` with count 1. -/
theorem c5_basic_auth_counterexample :
    splitOnChar ':' (utf8Lossy ((base64_decode "dXNlcjo=").getD [])) = ["user", ""] ∧
      HTTPBasic.authenticate ⟨"user", ""⟩ ⟨"Basic", "dXNlcjo="⟩ =
        AuthOutcome.err (AuthError.invalidFormat 1) :=
  ⟨by decide, by decide⟩

/-- The auth slot becomes `some c` exactly when some configured authenticator
accepts the credentials. -/
theorem authLoop_isSome_iff (auths : List AuthFn) (c : Credentials) :
    (authLoop auths c none).isSome = true ↔ ∃ a ∈ auths, a c = Except.ok () := by
  induction auths with
  | nil => simp [authLoop]
  | cons a rest ih =>
    unfold authLoop
    cases hac : a c with
    | ok u =>
      cases u
      simp [hac, List.exists_mem_cons_iff]
    | error e =>
      simp [hac, ih, List.exists_mem_cons_iff]

/-- The loop either leaves the slot untouched or writes the credentials. -/
theorem authLoop_none_or_self (auths : List AuthFn) (c : Credentials)
    (a0 : Option Credentials) :
    authLoop auths c a0 = a0 ∨ authLoop auths c a0 = some c := by
  induction auths with
  | nil => exact Or.inl rfl
  | cons a rest ih =>
    unfold authLoop
    cases a c with
    | ok _ => exact Or.inr rfl
    | error _ => exact ih

/-- With every earlier authenticator failing and one accepting, the loop stops
there with the credentials, no matter what follows. -/
theorem authLoop_first_ok (pre : List AuthFn) (a : AuthFn) (post : List AuthFn)
    (c : Credentials) (a0 : Option Credentials)
    (hpre : ∀ b ∈ pre, ∃ e, b c = Except.error e) (hok : a c = Except.ok ()) :
    authLoop (pre ++ a :: post) c a0 = some c := by
  induction pre with
  | nil =>
    simp only [List.nil_append, authLoop, hok]
  | cons b pre ih =>
    obtain ⟨e, he⟩ := hpre b (by simp)
    simp only [List.cons_append, authLoop, he]
    exact ih (fun x hx => hpre x (by simp [hx]))

/-- With every configured authenticator failing, the loop leaves the slot as it
found it. -/
theorem authLoop_all_error (auths : List AuthFn) (c : Credentials)
    (a0 : Option Credentials)
    (h : ∀ a ∈ auths, ∃ e, a c = Except.error e) : authLoop auths c a0 = a0 := by
  induction auths with
  | nil => rfl
  | cons a rest ih =>
    unfold authLoop
    obtain ⟨e, he⟩ := h a (by simp)
    rw [he]
    exact ih (fun x hx => h x (by simp [hx]))

/-- C1: with authenticators configured and credentials extracted, the engine
tries the authenticators in declared order, stopping at the first Ok and
setting the auth slot to the extracted credentials; the slot ends up set if
and only if some authenticator accepted; and when none did, the engine answers
407 with header `Proxy-Authenticate: Bearer` and an empty body, forwarding
nothing upstream. -/
theorem c1_auth_pipeline (upstream : Request → HttpResponse) (auths : List AuthFn)
    (handlers : List Handler) (flow : Flow) (req : Request) (creds : Credentials)
    (hne : auths ≠ [])
    (hex : credentialsTryFrom req = Extracted.ok creds)
    (hauth0 : flow.auth = none)
    (hhost : req.uri.host.isSome = true) :
    ((authLoop auths creds none).isSome = true ↔ ∃ a ∈ auths, a creds = Except.ok ()) ∧
    (authLoop auths creds none = none ∨ authLoop auths creds none = some creds) ∧
    (∀ pre a post post2, auths = pre ++ a :: post →
      (∀ b ∈ pre, ∃ e, b creds = Except.error e) → a creds = Except.ok () →
      authLoop (pre ++ a :: post2) creds none = some creds) ∧
    ((∀ a ∈ auths, ∃ e, a creds = Except.error e) →
      proxy upstream auths handlers flow req =
        ProxyResult.ok
          ⟨⟨407, "HTTP/1.1", [("proxy-authenticate", strToBytes "Bearer")], []⟩, none⟩) ∧
    (∀ c2, authLoop auths creds none = some c2 →
      c2 = creds ∧
      proxy upstream auths handlers flow req =
        proxyHandlerPhase upstream handlers { flow with auth := some c2 } req) := by
  obtain ⟨hst, hh⟩ := Option.isSome_iff_exists.mp hhost
  have hemp : auths.isEmpty = false := by
    cases auths with
    | nil => exact absurd rfl hne
    | cons a rest => rfl
  refine ⟨authLoop_isSome_iff auths creds, authLoop_none_or_self auths creds none,
    ?_, ?_, ?_⟩
  · intro pre a post post2 heq hpre hok
    exact authLoop_first_ok pre a post2 creds none hpre hok
  · intro hall
    unfold proxy
    simp only [hh, hemp, Bool.false_eq_true, if_false, hex, hauth0]
    rw [authLoop_all_error auths creds none hall]
    rfl
  · intro c2 hc2
    have hcs : c2 = creds := by
      rcases authLoop_none_or_self auths creds none with h0 | h0 <;> rw [h0] at hc2
      · exact absurd hc2 (by simp)
      · exact (Option.some_inj.mp hc2).symm
    refine ⟨hcs, ?_⟩
    unfold proxy
    simp only [hh, hemp, Bool.false_eq_true, if_false, hex, hauth0]
    rw [hc2]
    rfl

/-- Witness for C1: one configured authenticator that rejects the presented
`Bearer bad` credentials, yielding the 407 challenge and no upstream call. -/
theorem c1_auth_pipeline_witness :
    proxy (fun _ => ⟨200, "HTTP/1.1", [], []⟩)
        [fun c => if c.credentials = "tok" then Except.ok () else
          Except.error AuthError.notAuthenticated]
        [] ⟨0, "client", none⟩
        ⟨"GET", ⟨some "origin", some "origin"⟩, "HTTP/1.1",
          [("proxy-authorization", strToBytes "Bearer bad")], []⟩ =
      ProxyResult.ok
        ⟨⟨407, "HTTP/1.1", [("proxy-authenticate", strToBytes "Bearer")], []⟩, none⟩ :=
  (c1_auth_pipeline (fun _ => ⟨200, "HTTP/1.1", [], []⟩)
      [fun c => if c.credentials = "tok" then Except.ok () else
        Except.error AuthError.notAuthenticated]
      [] ⟨0, "client", none⟩
      ⟨"GET", ⟨some "origin", some "origin"⟩, "HTTP/1.1",
        [("proxy-authorization", strToBytes "Bearer bad")], []⟩
      ⟨"Bearer", "bad"⟩ (List.cons_ne_nil _ _) rfl rfl rfl).2.2.2.1
    (by
      intro a ha
      rw [List.mem_singleton] at ha
      subst ha
      exact ⟨AuthError.notAuthenticated, rfl⟩)

/-- One unfolding step of the forward chain. -/
theorem runForwardChain_cons (flow : Flow) (h : Handler) (hs : List Handler)
    (r : Request) :
    runForwardChain flow (h :: hs) r =
      match h.on_request flow r with
      | Forward.doNothing => runForwardChain flow hs r
      | Forward.modify r2 => runForwardChain flow hs r2
      | Forward.reply resp => Except.error resp := rfl

/-- The forward chain threads the request through a concatenation in order:
the second block runs only if the first completes, on its output. -/
theorem runForwardChain_append (flow : Flow) (xs ys : List Handler) (r : Request) :
    runForwardChain flow (xs ++ ys) r =
      match runForwardChain flow xs r with
      | Except.ok r2 => runForwardChain flow ys r2
      | Except.error resp => Except.error resp := by
  induction xs generalizing r with
  | nil => rfl
  | cons h hs ih =>
    rw [List.cons_append, runForwardChain_cons, runForwardChain_cons]
    cases h.on_request flow r with
    | doNothing => exact ih r
    | modify r2 => exact ih r2
    | reply resp => rfl

/-- The forward chain never consults the reverse hooks: replacing every
handler's `on_response` leaves it unchanged. -/
theorem runForwardChain_map_withOnResponse (flow : Flow) (hs : List Handler)
    (f : Flow → Response → Reverse) (r : Request) :
    runForwardChain flow (hs.map (fun k => k.withOnResponse f)) r =
      runForwardChain flow hs r := by
  induction hs generalizing r with
  | nil => rfl
  | cons h t ih =>
    rw [List.map_cons, runForwardChain_cons, runForwardChain_cons]
    have hw : (h.withOnResponse f).on_request = h.on_request := rfl
    rw [hw]
    cases h.on_request flow r with
    | doNothing => exact ih r
    | modify r2 => exact ih r2
    | reply resp => rfl

/-- C2: the forward chain visits handlers in declared order threading the
current request, and when a handler replies, that response goes straight back
to the client: nothing is forwarded upstream, later handlers never run (the
outcome is the same for every continuation of the chain), and no handler's
`on_response` runs (the outcome is the same under arbitrary replacement of
every reverse hook). -/
theorem c2_handler_short_circuit (upstream : Request → HttpResponse) (flow : Flow)
    (req : Request) (hst : String) (pre : List Handler) (h : Handler) (r_i : Request)
    (resp : Response)
    (hhost : req.uri.host = some hst)
    (hpre : runForwardChain flow pre req = Except.ok r_i)
    (hreply : h.on_request flow r_i = Forward.reply resp) :
    (∀ xs ys r, runForwardChain flow (xs ++ ys) r =
      match runForwardChain flow xs r with
      | Except.ok r2 => runForwardChain flow ys r2
      | Except.error e => Except.error e) ∧
    (∀ post, proxy upstream [] (pre ++ h :: post) flow req =
      ProxyResult.ok ⟨responseToHttp resp, none⟩) ∧
    (∀ post f, proxyHandlerPhase upstream
        (pre.map (fun k => k.withOnResponse f) ++ h.withOnResponse f :: post) flow req =
      ProxyResult.ok ⟨responseToHttp resp, none⟩) := by
  have hchain : ∀ post, runForwardChain flow (pre ++ h :: post) req = Except.error resp := by
    intro post
    rw [runForwardChain_append, hpre]
    show runForwardChain flow (h :: post) r_i = Except.error resp
    rw [runForwardChain_cons, hreply]
  refine ⟨fun xs ys r => runForwardChain_append flow xs ys r, ?_, ?_⟩
  · intro post
    unfold proxy
    simp only [hhost]
    show proxyHandlerPhase upstream (pre ++ h :: post) flow req = _
    unfold proxyHandlerPhase
    rw [hchain post]
  · intro post f
    have hc2 : runForwardChain flow
        (pre.map (fun k => k.withOnResponse f) ++ h.withOnResponse f :: post) req =
        Except.error resp := by
      rw [runForwardChain_append, runForwardChain_map_withOnResponse, hpre]
      show runForwardChain flow (h.withOnResponse f :: post) r_i = Except.error resp
      rw [runForwardChain_cons]
      have hw : (h.withOnResponse f).on_request = h.on_request := rfl
      rw [hw, hreply]
    unfold proxyHandlerPhase
    rw [hc2]

/-- Witness for C2: a pass-through handler, then one replying 418, then one
that would reply 500; the client receives the 418 and nothing goes upstream. -/
theorem c2_handler_short_circuit_witness :
    proxy (fun _ => ⟨200, "HTTP/1.1", [], []⟩) []
        [⟨fun _ _ => Forward.doNothing, fun _ _ => Reverse.doNothing⟩,
         ⟨fun _ _ =>
            Forward.reply ⟨418, "HTTP/1.1", [], [],
              ⟨"GET", ⟨none, none⟩, "HTTP/1.1", [], []⟩⟩,
          fun _ _ => Reverse.doNothing⟩,
         ⟨fun _ _ =>
            Forward.reply ⟨500, "HTTP/1.1", [], [],
              ⟨"GET", ⟨none, none⟩, "HTTP/1.1", [], []⟩⟩,
          fun _ _ => Reverse.doNothing⟩]
        ⟨0, "client", none⟩
        ⟨"GET", ⟨some "origin", some "origin"⟩, "HTTP/1.1", [], []⟩ =
      ProxyResult.ok ⟨⟨418, "HTTP/1.1", [], []⟩, none⟩ :=
  (c2_handler_short_circuit (fun _ => ⟨200, "HTTP/1.1", [], []⟩)
      ⟨0, "client", none⟩
      ⟨"GET", ⟨some "origin", some "origin"⟩, "HTTP/1.1", [], []⟩ "origin"
      [⟨fun _ _ => Forward.doNothing, fun _ _ => Reverse.doNothing⟩]
      ⟨fun _ _ =>
        Forward.reply ⟨418, "HTTP/1.1", [], [],
          ⟨"GET", ⟨none, none⟩, "HTTP/1.1", [], []⟩⟩,
       fun _ _ => Reverse.doNothing⟩
      ⟨"GET", ⟨some "origin", some "origin"⟩, "HTTP/1.1", [], []⟩
      ⟨418, "HTTP/1.1", [], [], ⟨"GET", ⟨none, none⟩, "HTTP/1.1", [], []⟩⟩
      rfl rfl rfl).2.1
    [⟨fun _ _ =>
        Forward.reply ⟨500, "HTTP/1.1", [], [],
          ⟨"GET", ⟨none, none⟩, "HTTP/1.1", [], []⟩⟩,
      fun _ _ => Reverse.doNothing⟩]

/-- No surviving header entry's name matches any hop-by-hop name after the
removal, case-insensitively. -/
theorem remove_hop_by_hop_not_mem (hs : Headers) (p : String × List Nat)
    (hp : p ∈ remove_hop_by_hop_headers hs) :
    strToLower p.1 ∉ (HOP_BY_HOP_HEADERS ++ HOP_BY_HOP_HEADERS_NONSTD).map strToLower := by
  rw [remove_hop_by_hop_eq_filter] at hp
  have hall := (List.mem_filter.mp hp).2
  intro hmem
  rcases List.mem_map.mp hmem with ⟨k, hk, hkeq⟩
  have hkk := List.all_eq_true.mp hall k hk
  simp only [Bool.not_eq_eq_eq_not, Bool.not_true, beq_eq_false_iff_ne, ne_eq] at hkk
  exact hkk hkeq.symm

/-- A forwarded request of the handler phase is exactly the forward-chain
output with hop-by-hop headers removed. -/
theorem proxyHandlerPhase_forwarded (upstream : Request → HttpResponse)
    (handlers : List Handler) (flow : Flow) (req : Request) (out : ProxyOutcome)
    (fr : Request)
    (hrun : proxyHandlerPhase upstream handlers flow req = ProxyResult.ok out)
    (hfwd : out.forwarded = some fr) :
    ∃ r2, runForwardChain flow handlers req = Except.ok r2 ∧
      fr = { r2 with headers := remove_hop_by_hop_headers r2.headers } := by
  unfold proxyHandlerPhase at hrun
  cases hfc : runForwardChain flow handlers req with
  | error resp =>
    simp only [hfc, ProxyResult.ok.injEq] at hrun
    rw [← hrun] at hfwd
    exact absurd hfwd (by simp)
  | ok r2 =>
    simp only [hfc, ProxyResult.ok.injEq] at hrun
    rw [← hrun] at hfwd
    simp only [Option.some.injEq] at hfwd
    exact ⟨r2, rfl, hfwd.symm⟩

/-- C3: whatever the proxy path forwards to the origin carries no hop-by-hop
header name (all nine, matched case-insensitively, every occurrence removed),
and is exactly the forward-chain output with the hop-by-hop strip applied. -/
theorem c3_hop_by_hop_stripped (upstream : Request → HttpResponse)
    (auths : List AuthFn) (handlers : List Handler) (flow : Flow) (req : Request)
    (out : ProxyOutcome) (fr : Request)
    (hrun : proxy upstream auths handlers flow req = ProxyResult.ok out)
    (hfwd : out.forwarded = some fr) :
    (∀ p ∈ fr.headers, strToLower p.1 ∉
      (HOP_BY_HOP_HEADERS ++ HOP_BY_HOP_HEADERS_NONSTD).map strToLower) ∧
    (∃ authv r2,
      runForwardChain { flow with auth := authv } handlers req = Except.ok r2 ∧
      fr = { r2 with headers := remove_hop_by_hop_headers r2.headers }) := by
  have main : ∃ authv r2,
      runForwardChain { flow with auth := authv } handlers req = Except.ok r2 ∧
      fr = { r2 with headers := remove_hop_by_hop_headers r2.headers } := by
    unfold proxy at hrun
    cases hh : req.uri.host with
    | none =>
      simp only [hh] at hrun
      exact absurd hrun (by simp)
    | some hst =>
      simp only [hh] at hrun
      by_cases hemp : auths.isEmpty = true
      · rw [if_pos hemp] at hrun
        exact ⟨flow.auth, proxyHandlerPhase_forwarded _ _ _ _ _ _ hrun hfwd⟩
      · rw [if_neg hemp] at hrun
        cases hex : credentialsTryFrom req with
        | panic m =>
          simp only [hex] at hrun
          exact absurd hrun (by simp)
        | err e =>
          simp only [hex, ProxyResult.ok.injEq] at hrun
          rw [← hrun] at hfwd
          exact absurd hfwd (by simp)
        | ok creds =>
          simp only [hex] at hrun
          by_cases hn : (authLoop auths creds flow.auth).isNone = true
          · rw [if_pos hn] at hrun
            simp only [ProxyResult.ok.injEq] at hrun
            rw [← hrun] at hfwd
            exact absurd hfwd (by simp)
          · rw [if_neg hn] at hrun
            exact ⟨authLoop auths creds flow.auth,
              proxyHandlerPhase_forwarded _ _ _ _ _ _ hrun hfwd⟩
  refine ⟨?_, main⟩
  rcases main with ⟨authv, r2, hchain, hfr⟩
  intro p hp
  rw [hfr] at hp
  exact remove_hop_by_hop_not_mem r2.headers p hp

/-- Witness for C3: an empty handler chain with a request carrying
`Connection` and `Content-Type`; the forwarded request keeps only the latter. -/
theorem c3_hop_by_hop_stripped_witness :
    (∀ p ∈ (⟨"GET", ⟨some "origin", some "origin"⟩, "HTTP/1.1",
        [("content-type", [2])], []⟩ : Request).headers,
      strToLower p.1 ∉
        (HOP_BY_HOP_HEADERS ++ HOP_BY_HOP_HEADERS_NONSTD).map strToLower) ∧
    (∃ authv r2,
      runForwardChain { (⟨0, "client", none⟩ : Flow) with auth := authv } []
          ⟨"GET", ⟨some "origin", some "origin"⟩, "HTTP/1.1",
            [("Connection", [1]), ("content-type", [2])], []⟩ = Except.ok r2 ∧
      (⟨"GET", ⟨some "origin", some "origin"⟩, "HTTP/1.1",
          [("content-type", [2])], []⟩ : Request) =
        { r2 with headers := remove_hop_by_hop_headers r2.headers }) :=
  c3_hop_by_hop_stripped (fun _ => ⟨200, "HTTP/1.1", [], []⟩) [] []
    ⟨0, "client", none⟩
    ⟨"GET", ⟨some "origin", some "origin"⟩, "HTTP/1.1",
      [("Connection", [1]), ("content-type", [2])], []⟩
    ⟨⟨200, "HTTP/1.1", [], []⟩,
      some ⟨"GET", ⟨some "origin", some "origin"⟩, "HTTP/1.1",
        [("content-type", [2])], []⟩⟩
    ⟨"GET", ⟨some "origin", some "origin"⟩, "HTTP/1.1", [("content-type", [2])], []⟩
    (by decide) rfl

end ProxyLib
